import Mathlib

/-!
Shallow embedding of the EarthChem import plugin
(`src/plugins/__init__.py`) of Sparrow-EarthChem-proxy.

Python floats and Decimals are idealised as exact rationals; `numpy.cos`
is idealised as `Real.cos`.  Python strings are Lean strings (lists of
characters); the regular expressions used by the source are fixed-shape
patterns and are embedded as direct character-list matching.
-/

/-! ### Python string primitives -/

/-- Python `str.strip` on the left: drop leading whitespace. -/
def ltrimL (l : List Char) : List Char := l.dropWhile Char.isWhitespace

/-- Python `str.strip`: drop leading and trailing whitespace. -/
def pyStripL (l : List Char) : List Char :=
  ((l.dropWhile Char.isWhitespace).reverse.dropWhile Char.isWhitespace).reverse

/-- `re.sub(r"\.\d+$", "", s)`: remove one trailing dot-plus-digits suffix,
if present.  The pattern is anchored at the end of the string, so it can
match at most once. -/
def stripDotDigitsL (l : List Char) : List Char :=
  let r := l.reverse
  let ds := r.takeWhile Char.isDigit
  if ds.isEmpty then l
  else
    match r.drop ds.length with
    | '.' :: rest => rest.reverse
    | _ => l

/-- String-level version of `stripDotDigitsL`. -/
def stripDotDigits (s : String) : String := ⟨stripDotDigitsL s.data⟩

/-- `re.sub(r"\.\d+$", "", column_name).strip()` from
`combine_repeated_columns`. -/
def cleanName (s : String) : String := ⟨pyStripL (stripDotDigitsL s.data)⟩

/-- Reversed-list matcher: does the first list start with the second?
Used to embed Python `str.endswith` via reversal. -/
def revStartsWith : List Char → List Char → Bool
  | _, [] => true
  | [], _ :: _ => false
  | a :: s, b :: t => a = b && revStartsWith s t

/-- Python `s.endswith(suf)`. -/
def pyEndsWith (s suf : String) : Bool :=
  revStartsWith s.data.reverse suf.data.reverse

/-! ### Cells and values -/

/-- A raw cell of the input table: a null marker (`NaN` or `None`,
carrying its Python `str` rendering), a number (Python floats idealised
as rationals), or a string. -/
inductive Cell
  | null (render : String)
  | num (q : ℚ)
  | str (s : String)
deriving DecidableEq

/-- `pandas.isnull`. -/
def Cell.isnull : Cell → Bool
  | .null _ => true
  | _ => false

/-- Python `str(...)` of a cell.  For a null cell this is the rendering
of the underlying marker (`"nan"` for `NaN`, `"None"` for `None`);
numeric renderings are represented canonically. -/
def Cell.pyStr : Cell → String
  | .null r => r
  | .num q => toString q
  | .str s => s

/-- Python truthiness of a cell: `NaN` is truthy, `None` is falsy, a
number is truthy iff nonzero, a string iff nonempty. -/
def Cell.pyTruthy : Cell → Bool
  | .null r => r != "None"
  | .num q => q != 0
  | .str s => s != ""

/-- Python `float(...)` of a cell.  Numeric strings that would parse as
floats are not modelled (no claim depends on them): conversion succeeds
exactly on numeric cells. -/
def Cell.toFloat : Cell → Option ℚ
  | .num q => some q
  | _ => none

/-- Round-half-to-even to an integer (the rounding used by Python's
`round` and by `Decimal` under the default context). -/
def rndHalfEven (q : ℚ) : ℤ :=
  let f := q.floor
  let r := q - f
  if r < 1/2 then f
  else if 1/2 < r then f + 1
  else if f % 2 = 0 then f else f + 1

/-- Python `round(q, 5)` idealised over exact rationals. -/
def round5 (q : ℚ) : ℚ := (rndHalfEven (q * 100000) : ℚ) / 100000

/-- The `Value` dataclass: a measured value with its parameter, unit and
method; `error` / `error_metric` are optional and default to absent. -/
structure Value where
  value : Cell
  parameter : String
  unit : String
  method : String
  error : Option ℚ := none
  error_metric : Option String := none
deriving DecidableEq

/-- `Value.rounded(5)`: `Decimal(round(self.value, 5))`.  Returns `none`
when the held value is not a number (Python would raise `TypeError`). -/
def Value.rounded5 (v : Value) : Option ℚ :=
  match v.value with
  | .num q => some (round5 q)
  | _ => none

/-- The flat form produced by `Value.to_datum`. -/
structure Datum where
  value : Cell
  error : Option ℚ
  parameter : String
  unit : String
  method : String
  error_metric : Option String
deriving DecidableEq

def Value.to_datum (v : Value) : Datum :=
  ⟨v.value, v.error, v.parameter, v.unit, v.method, v.error_metric⟩

/-- An entry of the per-row `data` dict built by `import_sample`: either
a wrapped `Value` or the raw cell stored as-is. -/
inductive Entry
  | measured (v : Value)
  | raw (c : Cell)
deriving DecidableEq

/-- Python truthiness of an entry: a `Value` instance is always truthy,
a raw cell has cell truthiness. -/
def Entry.truthy : Entry → Bool
  | .measured _ => true
  | .raw c => c.pyTruthy

/-- `float(...)` applied to an entry: raises (`none`) on `Value`. -/
def Entry.toFloat : Entry → Option ℚ
  | .measured _ => none
  | .raw c => c.toFloat

/-- A row of the (deduplicated) table: ordered column-name / cell pairs
with distinct names. -/
abbrev Row := List (String × Cell)

/-- The `data` dict: insertion-ordered mapping from column name to entry. -/
abbrev Data := List (String × Entry)

/-- `data[k] = e`: overwrite in place if the key exists, else append. -/
def dataSet (data : Data) (k : String) (e : Entry) : Data :=
  if data.any (fun p => p.1 = k) then
    data.map (fun p => if p.1 = k then (k, e) else p)
  else data ++ [(k, e)]

/-! ### ValueResolver: the per-cell loop of `import_sample` -/

/-- Result of processing one cell of the row. -/
inductive ResolveResult
  | skip
  | entry (e : Entry)
  | fail
deriving DecidableEq

/-- One iteration of the `for col_id, val in row.iteritems()` loop of
`import_sample` (source lines 36-59). -/
def resolveCell (row : Row) (col_id : String) (val : Cell) : ResolveResult :=
  if val.isnull || pyEndsWith col_id " UNIT" || pyEndsWith col_id " METH" then
    .skip
  else
    match row.lookup (col_id ++ " UNIT"), row.lookup (col_id ++ " METH") with
    | some ucell, some mcell =>
      let unit : Option Cell := if ucell.isnull then none else some ucell
      let unitS : String :=
        if unit.isNone && col_id.data.contains '_' then "ratio"
        else
          match unit with
          | none => "None"
          | some c => c.pyStr
      .entry (.measured ⟨val, col_id, unitS, mcell.pyStr, none, none⟩)
    | _, _ =>
      if pyEndsWith col_id "AGE" then
        match val.toFloat with
        | none => .fail
        | some q =>
          if q < 0 then .entry (.measured ⟨.num (-q), col_id, "year", "UNKNOWN", none, none⟩)
          else .entry (.measured ⟨.num q, col_id, "Ma", "UNKNOWN", none, none⟩)
      else .entry (.raw val)

/-- The whole resolver loop: build the `data` dict.  `none` models an
exception escaping the loop (a failed `float(...)`). -/
def resolveRow (row : Row) : Option Data :=
  row.foldlM
    (fun data p =>
      match resolveCell row p.1 p.2 with
      | .skip => some data
      | .entry e => some (dataSet data p.1 e)
      | .fail => none)
    []

/-! ### AgeErrorEstimator: `post_process_ages` -/

/-- `entry.rounded(5)`: raises (`none`) on a raw entry. -/
def Entry.rounded5 : Entry → Option ℚ
  | .measured v => v.rounded5
  | .raw _ => none

/-- `post_process_ages` (source lines 177-194).  `none` models an
exception (a `.rounded` call on a non-numeric or unwrapped entry); when
any of the three age keys is missing the dict is returned unchanged. -/
def post_process_ages (data : Data) : Option Data :=
  match data.lookup "AGE", data.lookup "MIN AGE", data.lookup "MAX AGE" with
  | some age, some min_age, some max_age =>
    match age.rounded5, min_age.rounded5, max_age.rounded5 with
    | some ra, some rmin, some rmax =>
      let d1 := ra - rmin
      let d2 := rmax - ra
      let metric := if d1 = d2 then "symmetric range" else "asymmetric range"
      match age with
      | .measured va =>
        some (dataSet data "AGE"
          (.measured { va with error := some (round5 ((d1 + d2) / 2)), error_metric := some metric }))
      | .raw _ => none
    | _, _, _ => none
  | _, _, _ => some data

/-! ### SampleAssembler -/

/-- The exceptions `import_sample` can raise while assembling a
document: a dict `KeyError`, the explicit reference-parsing `Exception`
(carrying the reference string), or a type/value conversion error. -/
inductive ImportError
  | keyError (k : String)
  | refParseError (ref : String)
  | convError
deriving DecidableEq

/-- `re.search(r", (\d{4})$", ref)` together with lines 71-72: the
pattern is end-anchored and of fixed length, so it can only match the
last six characters.  On a match, return `ref[:match.start()].strip()`
and the four digits as a number. -/
def refSearch (cs : List Char) : Option (List Char × ℕ) :=
  match cs.reverse with
  | d4 :: d3 :: d2 :: d1 :: c5 :: c6 :: rest =>
    if c6 = ',' ∧ c5 = ' ' ∧ d1.isDigit ∧ d2.isDigit ∧ d3.isDigit ∧ d4.isDigit then
      some (pyStripL rest.reverse,
        1000 * (d1.toNat - 48) + 100 * (d2.toNat - 48) + 10 * (d3.toNat - 48) + (d4.toNat - 48))
    else none
  | _ => none

/-- `build_material` (source lines 111-118). -/
inductive MaterialResult
  | plain (e : Option Entry)
  | composite (id mem : Entry)
deriving DecidableEq

def build_material (data : Data) : MaterialResult :=
  match data.lookup "ROCK NAME", data.lookup "MATERIAL" with
  | none, m => .plain m
  | some r, none => .plain (some r)
  | some r, some m => .composite r m

/-- `build_attributes` (source lines 121-129): one attribute per
enumerated descriptive column present in the data, in enumeration
order. -/
def build_attributes (data : Data) : List (String × Entry) :=
  ["MATERIAL", "TYPE", "COMPOSITION", "ROCK NAME", "SOURCE"].filterMap
    (fun c => (data.lookup c).map (fun v => (c, v)))

/-- One session of `build_sessions`: a single analysis holding the
datum list, with the fixed placeholder date and name. -/
structure Session where
  analysis : List (List Datum)
  date : String
  name : String

/-- `build_sessions` (source lines 132-143). -/
def build_sessions (data : Data) : List Session :=
  let datum_list :=
    data.filterMap (fun p =>
      match p.2 with
      | .measured v => some v.to_datum
      | .raw _ => none)
  [⟨[datum_list], "1900-01-01T00:00:00", "All data"⟩]

/-- `meters_per_degree` (source lines 224-231), with `numpy.cos`
idealised as the real cosine. -/
noncomputable def meters_per_degree (lat : ℚ) : ℝ :=
  let cos_lat := Real.cos (lat * Real.pi / 180)
  111132.92 - 559.82 * cos_lat ^ 2 + 1.175 * cos_lat ^ 4

/-- Source lines 94-95: `if precision := data.get("LOC PREC"):` — the
field is produced only for a *truthy* entry; `float` of a `Value` or an
unparsable string raises. -/
noncomputable def locPrecision (data : Data) (latitude : ℚ) :
    Except ImportError (Option ℝ) :=
  match data.lookup "LOC PREC" with
  | none => .ok none
  | some precision =>
    if precision.truthy then
      match precision.toFloat with
      | none => .error .convError
      | some p => .ok (some (meters_per_degree latitude * p))
    else .ok none

/-- The nested sample document of lines 75-97. -/
structure SampleDoc where
  name : Entry
  coordinates : ℚ × ℚ
  publication : List (String × ℕ)
  attributes : List (String × Entry)
  material : MaterialResult
  location_precision : Option ℝ
  session : List Session

/-- Assembly after a successful reference parse: latitude lookup and
conversion (line 73), then the document literal (lines 75-97). -/
noncomputable def assembleRest (data : Data) (authors : List Char) (year : ℕ) :
    Except ImportError SampleDoc :=
  match data.lookup "LATITUDE" with
  | none => .error (.keyError "LATITUDE")
  | some latE =>
    match latE.toFloat with
    | none => .error .convError
    | some latitude =>
      match data.lookup "SAMPLE ID" with
      | none => .error (.keyError "SAMPLE ID")
      | some sid =>
        match data.lookup "LONGITUDE" with
        | none => .error (.keyError "LONGITUDE")
        | some lonE =>
          match lonE.toFloat with
          | none => .error .convError
          | some longitude =>
            match locPrecision data latitude with
            | .error e => .error e
            | .ok lp =>
              .ok { name := sid,
                    coordinates := (longitude, latitude),
                    publication := [(⟨authors⟩, year)],
                    attributes := build_attributes data,
                    material := build_material data,
                    location_precision := lp,
                    session := build_sessions data }

/-- The assembly phase of `import_sample` (source lines 63-97): fetch
`REFERENCE`, parse it, then build the document.  `re.search` applied to
a non-string raises `TypeError`. -/
noncomputable def assembleSample (data : Data) : Except ImportError SampleDoc :=
  match data.lookup "REFERENCE" with
  | none => .error (.keyError "REFERENCE")
  | some (.raw (.str ref)) =>
    match refSearch ref.data with
    | none => .error (.refParseError ref)
    | some (authors, year) => assembleRest data authors year
  | some _ => .error .convError

/-- The whole of `import_sample` for one row (database write excluded):
resolve the cells, post-process ages, assemble the document. -/
noncomputable def process_sample (row : Row) : Except ImportError SampleDoc :=
  match resolveRow row with
  | none => .error .convError
  | some data0 =>
    match post_process_ages data0 with
    | none => .error .convError
    | some data => assembleSample data

/-! ### ColumnDeduplicator: `combine_repeated_columns` -/

/-- A batch of rows in column-major form: each column is its name with
its list of cells (nulls as `none`). -/
abbrev Frame := List (String × List (Option ℚ))

def frameNames (df : Frame) : List String := df.map Prod.fst

/-- One iteration of the loop of `combine_repeated_columns` (source
lines 200-213).  When the cleaned name already exists, the source's
`combine_first` call is evaluated but its result is never assigned, so
the only effect is dropping the duplicate column. -/
def dedupStep (df : Frame) (column_name : String) : Frame :=
  if cleanName column_name = column_name then df
  else if (frameNames df).contains (cleanName column_name) then
    df.filter (fun c => c.1 ≠ column_name)
  else
    df.map (fun c => if c.1 = column_name then (cleanName column_name, c.2) else c)

/-- `combine_repeated_columns`: the loop iterates over the column index
captured before any rename/drop. -/
def combine_repeated_columns (df : Frame) : Frame :=
  (frameNames df).foldl dedupStep df

/-! ### Helper lemmas -/

/-- The executable `Rat.floor` agrees (definitionally) with `⌊·⌋`, which
`norm_num` can evaluate. -/
theorem ratFloor_eq_intFloor (q : ℚ) : Rat.floor q = ⌊q⌋ := rfl

/-- If a list (read in reverse) starts with `a`, it cannot also start
with a different character `b`. -/
theorem revStartsWith_excl {r t u : List Char} {a b : Char}
    (hab : a ≠ b) (h : revStartsWith r (a :: t) = true) :
    revStartsWith r (b :: u) = false := by
  cases r with
  | nil => simp [revStartsWith] at h
  | cons c r =>
    simp only [revStartsWith, Bool.and_eq_true, decide_eq_true_eq] at h
    simp only [revStartsWith, Bool.and_eq_false_iff, decide_eq_false_iff_not]
    exact Or.inl (h.1 ▸ hab)

/-- A column name ending in `"AGE"` is not itself a `UNIT` or `METH`
companion column. -/
theorem endsWith_AGE_not_companion {s : String} (h : pyEndsWith s "AGE" = true) :
    pyEndsWith s " UNIT" = false ∧ pyEndsWith s " METH" = false := by
  unfold pyEndsWith at h ⊢
  rw [show "AGE".data.reverse = 'E' :: ['G', 'A'] from rfl] at h
  rw [show " UNIT".data.reverse = 'T' :: ['I', 'N', 'U', ' '] from rfl]
  rw [show " METH".data.reverse = 'H' :: ['T', 'E', 'M', ' '] from rfl]
  exact ⟨revStartsWith_excl (by decide) h, revStartsWith_excl (by decide) h⟩

/-! ### Claims about the resolver -/

/-- Claim C1 (status: code bug).  At a batch whose canonical `AGE`
column holds a null where the suffix-duplicate `AGE.1` holds `5`,
deduplication returns only the untouched canonical column: the
`combine_first` fill described by the spec never happens because the
source discards its result, so the value `5` is lost. -/
theorem combine_repeated_columns_drops_duplicate_values :
    combine_repeated_columns [("AGE", [(none : Option ℚ)]), ("AGE.1", [some 5])]
      = [("AGE", [none])] := by decide

/-- Claim C4: a column ending in `"AGE"` with no `UNIT`/`METH`
companions and a numeric cell resolves to a `MeasuredValue` with the
negated magnitude and unit `"year"` when negative, and the value itself
with unit `"Ma"` when non-negative, method `"UNKNOWN"` in both cases. -/
theorem resolveCell_age_path (row : Row) (col_id : String) (q : ℚ)
    (hu : row.lookup (col_id ++ " UNIT") = none)
    (hm : row.lookup (col_id ++ " METH") = none)
    (hage : pyEndsWith col_id "AGE" = true) :
    resolveCell row col_id (.num q) =
      .entry (.measured
        (if q < 0 then ⟨.num (-q), col_id, "year", "UNKNOWN", none, none⟩
         else ⟨.num q, col_id, "Ma", "UNKNOWN", none, none⟩)) := by
  obtain ⟨h1, h2⟩ := endsWith_AGE_not_companion hage
  unfold resolveCell
  rw [hu, hm]
  simp [Cell.isnull, h1, h2, hage, Cell.toFloat]
  split <;> rfl

theorem resolveCell_age_path_witness :
    resolveCell [("AGE", .num (-10))] "AGE" (.num (-10)) =
      .entry (.measured ⟨.num 10, "AGE", "year", "UNKNOWN", none, none⟩) ∧
    resolveCell [("AGE", .num 10)] "AGE" (.num 10) =
      .entry (.measured ⟨.num 10, "AGE", "Ma", "UNKNOWN", none, none⟩) := by
  constructor
  · rw [resolveCell_age_path _ _ _ (by decide) (by decide) (by decide)]; decide
  · rw [resolveCell_age_path _ _ _ (by decide) (by decide) (by decide)]; decide

/-- Claim C6: when both companion columns exist, the unit cell is null
and the parameter name contains an underscore, the resolver substitutes
the unit `"ratio"`. -/
theorem resolveCell_ratio_unit (row : Row) (col_id : String) (val u m : Cell)
    (hval : val.isnull = false)
    (hcu : pyEndsWith col_id " UNIT" = false)
    (hcm : pyEndsWith col_id " METH" = false)
    (hu : row.lookup (col_id ++ " UNIT") = some u)
    (hm : row.lookup (col_id ++ " METH") = some m)
    (hun : u.isnull = true)
    (hus : col_id.data.contains '_' = true) :
    resolveCell row col_id val =
      .entry (.measured ⟨val, col_id, "ratio", m.pyStr, none, none⟩) := by
  have hus' : '_' ∈ col_id.data := by simpa using hus
  unfold resolveCell
  rw [hu, hm]
  simp [hval, hcu, hcm, hun, hus']

theorem resolveCell_ratio_unit_witness :
    resolveCell
      [("SiO2_ratio", .num 50), ("SiO2_ratio UNIT", .null "nan"), ("SiO2_ratio METH", .str "ICP")]
      "SiO2_ratio" (.num 50) =
      .entry (.measured ⟨.num 50, "SiO2_ratio", "ratio", "ICP", none, none⟩) := by
  rw [resolveCell_ratio_unit _ _ _ (.null "nan") (.str "ICP")
    (by decide) (by decide) (by decide) (by decide) (by decide) (by decide) (by decide)]
  rfl

/-- Claim C10: when both companion columns exist, the unit cell is null
and the parameter name has no underscore, the constructed value's unit
is the string `"None"` (the rendering of the null placeholder after its
replacement by Python `None`), and the method is the method cell's own
string rendering (`"nan"` for a `NaN` cell). -/
theorem resolveCell_null_unit_renders (row : Row) (col_id : String) (val u m : Cell)
    (hval : val.isnull = false)
    (hcu : pyEndsWith col_id " UNIT" = false)
    (hcm : pyEndsWith col_id " METH" = false)
    (hu : row.lookup (col_id ++ " UNIT") = some u)
    (hm : row.lookup (col_id ++ " METH") = some m)
    (hun : u.isnull = true)
    (hus : col_id.data.contains '_' = false) :
    resolveCell row col_id val =
      .entry (.measured ⟨val, col_id, "None", m.pyStr, none, none⟩) ∧
    (∀ r, m = .null r → m.pyStr = r) := by
  have hus' : '_' ∉ col_id.data := by simpa using hus
  refine ⟨?_, fun r hr => by rw [hr]; rfl⟩
  unfold resolveCell
  rw [hu, hm]
  simp [hval, hcu, hcm, hun, hus']

theorem resolveCell_null_unit_renders_witness :
    resolveCell
      [("SiO2", .num 50), ("SiO2 UNIT", .null "nan"), ("SiO2 METH", .null "nan")]
      "SiO2" (.num 50) =
      .entry (.measured ⟨.num 50, "SiO2", "None", "nan", none, none⟩) := by
  have h := resolveCell_null_unit_renders
    [("SiO2", .num 50), ("SiO2 UNIT", .null "nan"), ("SiO2 METH", .null "nan")]
    "SiO2" (.num 50) (.null "nan") (.null "nan")
    (by decide) (by decide) (by decide) (by decide) (by decide) (by decide) (by decide)
  exact h.1

/-! ### Claims about the age post-processor -/

/-- Claim C2: when `AGE`, `MIN AGE` and `MAX AGE` are all present as
measured values, post-processing sets `AGE.error` to
`round5((d1 + d2) / 2)` with `d1 = round5(age) - round5(min_age)` and
`d2 = round5(max_age) - round5(age)`, and sets `error_metric` to
`"symmetric range"` exactly when `d1 = d2`; when any of the three is
absent the data is returned unchanged. -/
theorem post_process_ages_spec (data : Data) :
    (∀ (va vmin vmax : Value) (qa qmin qmax : ℚ),
      data.lookup "AGE" = some (.measured va) → va.value = .num qa →
      data.lookup "MIN AGE" = some (.measured vmin) → vmin.value = .num qmin →
      data.lookup "MAX AGE" = some (.measured vmax) → vmax.value = .num qmax →
      post_process_ages data =
        some (dataSet data "AGE" (.measured
          { va with
            error := some (round5 (((round5 qa - round5 qmin) + (round5 qmax - round5 qa)) / 2)),
            error_metric := some (if round5 qa - round5 qmin = round5 qmax - round5 qa
              then "symmetric range" else "asymmetric range") }))) ∧
    ((data.lookup "AGE" = none ∨ data.lookup "MIN AGE" = none ∨ data.lookup "MAX AGE" = none) →
      post_process_ages data = some data) := by
  constructor
  · intro va vmin vmax qa qmin qmax h1 h2 h3 h4 h5 h6
    unfold post_process_ages
    rw [h1, h3, h5]
    simp [Entry.rounded5, Value.rounded5, h2, h4, h6]
  · intro h
    unfold post_process_ages
    rcases hA : data.lookup "AGE" with _ | ea <;>
      rcases hMin : data.lookup "MIN AGE" with _ | emin <;>
        rcases hMax : data.lookup "MAX AGE" with _ | emax <;>
          simp_all

theorem post_process_ages_spec_witness :
    post_process_ages
      [("AGE", .measured ⟨.num 5, "AGE", "Ma", "UNKNOWN", none, none⟩),
       ("MIN AGE", .measured ⟨.num 4, "MIN AGE", "Ma", "UNKNOWN", none, none⟩),
       ("MAX AGE", .measured ⟨.num 7, "MAX AGE", "Ma", "UNKNOWN", none, none⟩)] =
      some
        [("AGE", .measured ⟨.num 5, "AGE", "Ma", "UNKNOWN", some (3/2), some "asymmetric range"⟩),
         ("MIN AGE", .measured ⟨.num 4, "MIN AGE", "Ma", "UNKNOWN", none, none⟩),
         ("MAX AGE", .measured ⟨.num 7, "MAX AGE", "Ma", "UNKNOWN", none, none⟩)] ∧
    post_process_ages [] = some [] := by
  constructor
  · have h := (post_process_ages_spec
      [("AGE", .measured ⟨.num 5, "AGE", "Ma", "UNKNOWN", none, none⟩),
       ("MIN AGE", .measured ⟨.num 4, "MIN AGE", "Ma", "UNKNOWN", none, none⟩),
       ("MAX AGE", .measured ⟨.num 7, "MAX AGE", "Ma", "UNKNOWN", none, none⟩)]).1
      ⟨.num 5, "AGE", "Ma", "UNKNOWN", none, none⟩
      ⟨.num 4, "MIN AGE", "Ma", "UNKNOWN", none, none⟩
      ⟨.num 7, "MAX AGE", "Ma", "UNKNOWN", none, none⟩
      5 4 7 (by decide) rfl (by decide) rfl (by decide) rfl
    rw [h]
    norm_num [dataSet, round5, rndHalfEven, ratFloor_eq_intFloor]
    decide
  · exact (post_process_ages_spec []).2 (Or.inl rfl)

/-! ### Claims about the error/error-metric invariant -/

theorem mem_of_lookup {l : Data} {k : String} {e : Entry}
    (h : l.lookup k = some e) : (k, e) ∈ l := by
  induction l with
  | nil => simp [List.lookup] at h
  | cons p l ih =>
    obtain ⟨a, b⟩ := p
    by_cases hk : k = a
    · subst hk
      simp [List.lookup] at h
      simp [h]
    · have hb : (k == a) = false := beq_false_of_ne hk
      simp [List.lookup, hb] at h
      exact List.mem_cons_of_mem _ (ih h)

theorem mem_dataSet {data : Data} {k : String} {e : Entry} {p : String × Entry}
    (h : p ∈ dataSet data k e) : p ∈ data ∨ p = (k, e) := by
  unfold dataSet at h
  split at h
  · obtain ⟨q, hq, hpq⟩ := List.mem_map.mp h
    by_cases hk : q.1 = k
    · right; rw [← hpq]; simp [hk]
    · left; rw [← hpq]; simp [hk]; exact hq
  · rcases List.mem_append.mp h with h | h
    · exact Or.inl h
    · simp at h; exact Or.inr h

/-- Every `Value` built by the resolver has `error` and `error_metric`
absent (the dataclass defaults). -/
theorem resolveCell_entry_fresh {row : Row} {c : String} {val : Cell} {v : Value}
    (h : resolveCell row c val = .entry (.measured v)) :
    v.error = none ∧ v.error_metric = none := by
  unfold resolveCell at h
  split at h
  · simp at h
  · split at h
    · simp only [ResolveResult.entry.injEq, Entry.measured.injEq] at h
      rw [← h]
      exact ⟨rfl, rfl⟩
    · split at h
      · split at h
        · simp at h
        · split at h <;>
          · simp only [ResolveResult.entry.injEq, Entry.measured.injEq] at h
            rw [← h]
            exact ⟨rfl, rfl⟩
      · simp at h

theorem resolveRow_aux (row : Row) :
    ∀ (l : List (String × Cell)) (acc data : Data),
      (l.foldlM (fun d p =>
        match resolveCell row p.1 p.2 with
        | .skip => some d
        | .entry e => some (dataSet d p.1 e)
        | .fail => none) acc = some data) →
      (∀ p ∈ acc, ∀ v, p.2 = .measured v → v.error = none ∧ v.error_metric = none) →
      ∀ p ∈ data, ∀ v, p.2 = .measured v → v.error = none ∧ v.error_metric = none := by
  intro l
  induction l with
  | nil =>
    intro acc data h hacc
    simp only [List.foldlM_nil] at h
    cases h
    exact hacc
  | cons x l ih =>
    intro acc data h hacc
    rw [List.foldlM_cons] at h
    cases hc : resolveCell row x.1 x.2 with
    | skip =>
      rw [hc] at h
      exact ih acc data h hacc
    | entry e =>
      rw [hc] at h
      refine ih _ data h ?_
      intro p hp v hv
      rcases mem_dataSet hp with hmem | hpe
      · exact hacc p hmem v hv
      · rw [hpe] at hv
        have hv' : e = Entry.measured v := hv
        exact resolveCell_entry_fresh (hv' ▸ hc)
    | fail =>
      rw [hc] at h
      simp at h

theorem resolveRow_fresh {row : Row} {data : Data} (h : resolveRow row = some data) :
    ∀ p ∈ data, ∀ v, p.2 = .measured v → v.error = none ∧ v.error_metric = none :=
  resolveRow_aux row row [] data h (by simp)

/-- `post_process_ages` only ever sets `error` and `error_metric`
together, so it preserves the sync invariant. -/
theorem post_process_ages_sync {data data' : Data}
    (h : post_process_ages data = some data')
    (hs : ∀ p ∈ data, ∀ v, p.2 = .measured v → (v.error.isSome ↔ v.error_metric.isSome)) :
    ∀ p ∈ data', ∀ v, p.2 = .measured v → (v.error.isSome ↔ v.error_metric.isSome) := by
  unfold post_process_ages at h
  split at h
  · split at h
    · split at h
      · cases h
        intro p hp v hv
        rcases mem_dataSet hp with hmem | hpe
        · exact hs p hmem v hv
        · rw [hpe] at hv
          simp only [Entry.measured.injEq] at hv
          rw [← hv]
          simp
      · simp at h
    · simp at h
  · cases h
    exact hs

/-- Claim C8: at every point of the pipeline, a measured value's
`error_metric` is set iff its `error` is set — both are absent on every
value the resolver constructs, and the age estimator assigns them only
together. -/
theorem pipeline_error_metric_sync (row : Row) (data0 : Data)
    (h0 : resolveRow row = some data0) :
    (∀ p ∈ data0, ∀ v, p.2 = .measured v → v.error = none ∧ v.error_metric = none) ∧
    (∀ data, post_process_ages data0 = some data →
      ∀ p ∈ data, ∀ v, p.2 = .measured v → (v.error.isSome ↔ v.error_metric.isSome)) := by
  have h1 := resolveRow_fresh h0
  refine ⟨h1, fun data h => post_process_ages_sync h ?_⟩
  intro p hp v hv
  obtain ⟨he, hm⟩ := h1 p hp v hv
  simp [he, hm]

theorem pipeline_error_metric_sync_witness :
    (({ value := .num 5, parameter := "AGE", unit := "Ma", method := "UNKNOWN",
        error := none, error_metric := none } : Value).error = none ∧
     ({ value := .num 5, parameter := "AGE", unit := "Ma", method := "UNKNOWN",
        error := none, error_metric := none } : Value).error_metric = none) ∧
    (({ value := .num 5, parameter := "AGE", unit := "Ma", method := "UNKNOWN",
        error := none, error_metric := none } : Value).error.isSome ↔
     ({ value := .num 5, parameter := "AGE", unit := "Ma", method := "UNKNOWN",
        error := none, error_metric := none } : Value).error_metric.isSome) := by
  have h := pipeline_error_metric_sync [("AGE", .num 5)]
    [("AGE", .measured ⟨.num 5, "AGE", "Ma", "UNKNOWN", none, none⟩)] (by decide)
  exact ⟨h.1 ("AGE", .measured ⟨.num 5, "AGE", "Ma", "UNKNOWN", none, none⟩) (by decide) _ rfl,
         h.2 [("AGE", .measured ⟨.num 5, "AGE", "Ma", "UNKNOWN", none, none⟩)] (by decide)
           ("AGE", .measured ⟨.num 5, "AGE", "Ma", "UNKNOWN", none, none⟩) (by decide) _ rfl⟩

/-! ### Claims about `meters_per_degree` -/

theorem meters_per_degree_at_zero : meters_per_degree 0 = 110574.275 := by
  unfold meters_per_degree
  norm_num [Real.cos_zero]

theorem meters_per_degree_at_ninety : meters_per_degree 90 = 111132.92 := by
  unfold meters_per_degree
  have h : ((90 : ℚ) : ℝ) * Real.pi / 180 = Real.pi / 2 := by push_cast; ring
  rw [h, Real.cos_pi_div_two]
  norm_num

/-- Claim C5, counterexample: the spec's approximate values are wrong.
`meters_per_degree 0` is more than 700 m below the claimed ≈ 111,320,
and `meters_per_degree 90` is more than 500 m above the claimed
≈ 110,574 (the two quoted values do not match the formula). -/
theorem meters_per_degree_spec_values_false :
    meters_per_degree 0 < 111320 - 700 ∧ 110574 + 500 < meters_per_degree 90 := by
  rw [meters_per_degree_at_zero, meters_per_degree_at_ninety]
  norm_num

/-- Claim C5 (amended): `meters_per_degree` computes
`111132.92 − 559.82·cos²θ + 1.175·cos⁴θ` with `θ` the latitude in
radians, and in particular `meters_per_degree 0 = 110574.275`
(≈ 110,574 m, at the equator) and `meters_per_degree 90 = 111132.92`
(≈ 111,133 m, at the pole, where the cosine terms vanish). -/
theorem meters_per_degree_formula_and_values :
    (∀ lat : ℚ, meters_per_degree lat =
      111132.92 - 559.82 * Real.cos (lat * Real.pi / 180) ^ 2
        + 1.175 * Real.cos (lat * Real.pi / 180) ^ 4) ∧
    meters_per_degree 0 = 110574.275 ∧ meters_per_degree 90 = 111132.92 :=
  ⟨fun _ => rfl, meters_per_degree_at_zero, meters_per_degree_at_ninety⟩

/-! ### Claims about reference parsing -/

/-- The spec-side pattern: the reference ends in a comma, a space and
four digits (`, YYYY$`). -/
def refPattern (cs : List Char) : Prop :=
  ∃ pre d₁ d₂ d₃ d₄, cs = pre ++ [',', ' ', d₁, d₂, d₃, d₄] ∧
    d₁.isDigit ∧ d₂.isDigit ∧ d₃.isDigit ∧ d₄.isDigit

/-- On a string matching the pattern, `refSearch` returns the stripped
author part and the four digits as a number. -/
theorem refSearch_of_pattern (pre : List Char) (d₁ d₂ d₃ d₄ : Char)
    (h1 : d₁.isDigit) (h2 : d₂.isDigit) (h3 : d₃.isDigit) (h4 : d₄.isDigit) :
    refSearch (pre ++ [',', ' ', d₁, d₂, d₃, d₄]) =
      some (pyStripL pre,
        1000 * (d₁.toNat - 48) + 100 * (d₂.toNat - 48)
          + 10 * (d₃.toNat - 48) + (d₄.toNat - 48)) := by
  unfold refSearch
  rw [List.reverse_append]
  simp [h1, h2, h3, h4]

/-- The code's search succeeds exactly on strings matching the spec's
pattern. -/
theorem refPattern_iff_isSome (cs : List Char) :
    refPattern cs ↔ (refSearch cs).isSome := by
  constructor
  · rintro ⟨pre, d₁, d₂, d₃, d₄, rfl, h1, h2, h3, h4⟩
    rw [refSearch_of_pattern pre d₁ d₂ d₃ d₄ h1 h2 h3 h4]
    rfl
  · intro h
    unfold refSearch at h
    rcases hrev : cs.reverse with _ | ⟨d4, _ | ⟨d3, _ | ⟨d2, _ | ⟨d1, _ | ⟨c5, _ | ⟨c6, rest⟩⟩⟩⟩⟩⟩ <;>
      rw [hrev] at h <;> simp at h
    have hcs : cs = rest.reverse ++ [c6, c5, d1, d2, d3, d4] := by
      have := congrArg List.reverse hrev
      simpa using this
    obtain ⟨hc6, hc5, hd1, hd2, hd3, hd4⟩ := h
    exact ⟨rest.reverse, d1, d2, d3, d4, by rw [hcs, hc6, hc5], hd1, hd2, hd3, hd4⟩

/-- Unfolding of the assembly phase once `REFERENCE` is known to hold a
raw string. -/
theorem assembleSample_of_ref (data : Data) (ref : String)
    (h : data.lookup "REFERENCE" = some (.raw (.str ref))) :
    assembleSample data =
      match refSearch ref.data with
      | none => .error (.refParseError ref)
      | some (authors, year) => assembleRest data authors year := by
  unfold assembleSample
  rw [h]

theorem locPrecision_no_refParse (data : Data) (lat : ℚ) (s : String) :
    locPrecision data lat ≠ .error (.refParseError s) := by
  unfold locPrecision
  split
  · simp
  · split
    · split <;> simp
    · simp

theorem assembleRest_no_refParse (data : Data) (authors : List Char) (year : ℕ) (s : String) :
    assembleRest data authors year ≠ .error (.refParseError s) := by
  unfold assembleRest
  split
  · simp
  · split
    · simp
    · split
      · simp
      · split
        · simp
        · split
          · simp
          · split
            · next e heq =>
              intro hc
              have he : e = ImportError.refParseError s := by injection hc
              rw [he] at heq
              exact locPrecision_no_refParse data _ s heq
            · simp

/-- Claim C3: assembling the sample document fails with the
reference-parsing error (naming the reference string) exactly when the
`REFERENCE` field does not end in a comma, a space and four digits;
when it does, the search yields the text before the match with
surrounding whitespace stripped as author and the four digits as the
year. -/
theorem assembleSample_reference_parsing (data : Data) (ref : String)
    (h : data.lookup "REFERENCE" = some (.raw (.str ref))) :
    ((assembleSample data = .error (.refParseError ref)) ↔ ¬ refPattern ref.data) ∧
    (∀ pre d₁ d₂ d₃ d₄, ref.data = pre ++ [',', ' ', d₁, d₂, d₃, d₄] →
      d₁.isDigit → d₂.isDigit → d₃.isDigit → d₄.isDigit →
      refSearch ref.data =
        some (pyStripL pre,
          1000 * (d₁.toNat - 48) + 100 * (d₂.toNat - 48)
            + 10 * (d₃.toNat - 48) + (d₄.toNat - 48))) := by
  constructor
  · rw [assembleSample_of_ref data ref h]
    constructor
    · intro hfail hpat
      have hsome := (refPattern_iff_isSome ref.data).mp hpat
      rcases hs : refSearch ref.data with _ | p
      · rw [hs] at hsome; simp at hsome
      · rw [hs] at hfail
        exact assembleRest_no_refParse data p.1 p.2 ref hfail
    · intro hpat
      rcases hs : refSearch ref.data with _ | p
      · rfl
      · exact absurd ((refPattern_iff_isSome ref.data).mpr (by rw [hs]; rfl)) hpat
  · intro pre d₁ d₂ d₃ d₄ hcs h1 h2 h3 h4
    rw [hcs]
    exact refSearch_of_pattern pre d₁ d₂ d₃ d₄ h1 h2 h3 h4

theorem assembleSample_reference_parsing_witness :
    assembleSample [("REFERENCE", .raw (.str "no year here"))] =
      .error (.refParseError "no year here") ∧
    refSearch "Smith J, Jones K, 1998".data = some ("Smith J, Jones K".data, 1998) := by
  constructor
  · exact (assembleSample_reference_parsing
      [("REFERENCE", .raw (.str "no year here"))] "no year here" rfl).1.mpr
      (fun hp => absurd ((refPattern_iff_isSome _).mp hp) (by decide))
  · rw [(assembleSample_reference_parsing
      [("REFERENCE", .raw (.str "Smith J, Jones K, 1998"))] "Smith J, Jones K, 1998" rfl).2
      "Smith J, Jones K".data '1' '9' '9' '8'
      (by decide) (by decide) (by decide) (by decide) (by decide)]
    decide

/-! ### Claims about location precision -/

theorem locPrecision_num (data : Data) (lat p : ℚ)
    (hp : data.lookup "LOC PREC" = some (.raw (.num p))) :
    locPrecision data lat =
      .ok (if p = 0 then none else some (meters_per_degree lat * p)) := by
  unfold locPrecision
  rw [hp]
  by_cases hz : p = 0
  · subst hz
    simp [Entry.truthy, Cell.pyTruthy]
  · simp [Entry.truthy, Cell.pyTruthy, hz, Entry.toFloat, Cell.toFloat]

theorem locPrecision_absent (data : Data) (lat : ℚ)
    (hp : data.lookup "LOC PREC" = none) :
    locPrecision data lat = .ok none := by
  unfold locPrecision
  rw [hp]

theorem assembleRest_ok (data : Data) (authors : List Char) (year : ℕ)
    (lat lon : ℚ) (sid : Entry) (lp : Option ℝ)
    (hlat : data.lookup "LATITUDE" = some (.raw (.num lat)))
    (hsid : data.lookup "SAMPLE ID" = some sid)
    (hlon : data.lookup "LONGITUDE" = some (.raw (.num lon)))
    (hlp : locPrecision data lat = .ok lp) :
    assembleRest data authors year =
      .ok ⟨sid, (lon, lat), [(⟨authors⟩, year)], build_attributes data,
           build_material data, lp, build_sessions data⟩ := by
  simp only [assembleRest, hlat, hsid, hlon, hlp, Entry.toFloat, Cell.toFloat]

/-- Claim C7, counterexample: a row whose `LOC PREC` is present and
equal to `0` assembles successfully but the document carries *no*
`location_precision` (the walrus `if precision := data.get("LOC PREC"):`
tests Python truthiness, and `0.0` is falsy), contradicting the claim's
"including zero". -/
theorem loc_precision_zero_dropped :
    ∃ doc, assembleSample
      [("REFERENCE", .raw (.str "A, 1999")), ("LATITUDE", .raw (.num 10)),
       ("SAMPLE ID", .raw (.str "s1")), ("LONGITUDE", .raw (.num 20)),
       ("LOC PREC", .raw (.num 0))] = .ok doc ∧
    doc.location_precision = none := by
  have h1 := assembleRest_ok
    [("REFERENCE", .raw (.str "A, 1999")), ("LATITUDE", .raw (.num 10)),
     ("SAMPLE ID", .raw (.str "s1")), ("LONGITUDE", .raw (.num 20)),
     ("LOC PREC", .raw (.num 0))]
    "A".data 1999 10 20 (.raw (.str "s1")) none rfl rfl rfl
    (by rw [locPrecision_num
      [("REFERENCE", .raw (.str "A, 1999")), ("LATITUDE", .raw (.num 10)),
       ("SAMPLE ID", .raw (.str "s1")), ("LONGITUDE", .raw (.num 20)),
       ("LOC PREC", .raw (.num 0))] 10 0 rfl]; norm_num)
  have h0 : assembleSample
      [("REFERENCE", .raw (.str "A, 1999")), ("LATITUDE", .raw (.num 10)),
       ("SAMPLE ID", .raw (.str "s1")), ("LONGITUDE", .raw (.num 20)),
       ("LOC PREC", .raw (.num 0))] = assembleRest
      [("REFERENCE", .raw (.str "A, 1999")), ("LATITUDE", .raw (.num 10)),
       ("SAMPLE ID", .raw (.str "s1")), ("LONGITUDE", .raw (.num 20)),
       ("LOC PREC", .raw (.num 0))] "A".data 1999 := by
    rw [assembleSample_of_ref
      [("REFERENCE", .raw (.str "A, 1999")), ("LATITUDE", .raw (.num 10)),
       ("SAMPLE ID", .raw (.str "s1")), ("LONGITUDE", .raw (.num 20)),
       ("LOC PREC", .raw (.num 0))] "A, 1999" rfl,
      show refSearch "A, 1999".data = some ("A".data, 1999) by decide]
  exact ⟨_, h0.trans h1, rfl⟩

/-- Claim C7 (amended): when the required fields resolve, the assembled
document has `location_precision = meters_per_degree(latitude) * p`
exactly when `LOC PREC` is present with a *nonzero* numeric value `p`;
when `LOC PREC` is zero (falsy) or absent, the document has no
`location_precision` field. -/
theorem assembleSample_loc_precision (data : Data) (ref : String)
    (authors : List Char) (year : ℕ) (lat lon : ℚ) (sid : Entry)
    (href : data.lookup "REFERENCE" = some (.raw (.str ref)))
    (hsearch : refSearch ref.data = some (authors, year))
    (hlat : data.lookup "LATITUDE" = some (.raw (.num lat)))
    (hsid : data.lookup "SAMPLE ID" = some sid)
    (hlon : data.lookup "LONGITUDE" = some (.raw (.num lon))) :
    (∀ p : ℚ, data.lookup "LOC PREC" = some (.raw (.num p)) →
      ∃ doc, assembleSample data = .ok doc ∧
        doc.location_precision =
          (if p = 0 then none else some (meters_per_degree lat * p))) ∧
    (data.lookup "LOC PREC" = none →
      ∃ doc, assembleSample data = .ok doc ∧ doc.location_precision = none) := by
  have hbase : assembleSample data = assembleRest data authors year := by
    rw [assembleSample_of_ref data ref href, hsearch]
  constructor
  · intro p hp
    have h1 := assembleRest_ok data authors year lat lon sid _ hlat hsid hlon
      (locPrecision_num data lat p hp)
    exact ⟨_, hbase.trans h1, rfl⟩
  · intro hp
    have h1 := assembleRest_ok data authors year lat lon sid _ hlat hsid hlon
      (locPrecision_absent data lat hp)
    exact ⟨_, hbase.trans h1, rfl⟩

theorem assembleSample_loc_precision_witness :
    ∃ doc, assembleSample
      [("REFERENCE", .raw (.str "A, 1999")), ("LATITUDE", .raw (.num 10)),
       ("SAMPLE ID", .raw (.str "s1")), ("LONGITUDE", .raw (.num 20)),
       ("LOC PREC", .raw (.num 2))] = .ok doc ∧
    doc.location_precision = some (meters_per_degree 10 * 2) := by
  obtain ⟨doc, h1, h2⟩ := (assembleSample_loc_precision
    [("REFERENCE", .raw (.str "A, 1999")), ("LATITUDE", .raw (.num 10)),
     ("SAMPLE ID", .raw (.str "s1")), ("LONGITUDE", .raw (.num 20)),
     ("LOC PREC", .raw (.num 2))]
    "A, 1999" "A".data 1999 10 20 (.raw (.str "s1"))
    rfl (by decide) rfl rfl rfl).1 2 rfl
  refine ⟨doc, h1, ?_⟩
  rw [h2]
  norm_num

/-! ### Claims about column deduplication -/

theorem length_dropWhile_le (p : Char → Bool) (l : List Char) :
    (l.dropWhile p).length ≤ l.length := by
  induction l with
  | nil => simp
  | cons a l ih =>
    by_cases hp : p a
    · simp [List.dropWhile_cons, hp]; omega
    · simp [List.dropWhile_cons, hp]

theorem dropWhile_idem (p : Char → Bool) (l : List Char) :
    (l.dropWhile p).dropWhile p = l.dropWhile p := by
  induction l with
  | nil => rfl
  | cons a l ih =>
    by_cases hp : p a
    · simp [List.dropWhile_cons, hp, ih]
    · simp [List.dropWhile_cons, hp]

/-- If a whole concatenation survives `dropWhile`, so does its left
part. -/
theorem dropWhile_append_self {p : Char → Bool} (u t : List Char)
    (h : (u ++ t).dropWhile p = u ++ t) : u.dropWhile p = u := by
  cases u with
  | nil => rfl
  | cons a w =>
    rw [List.cons_append, List.dropWhile_cons] at h
    by_cases hp : p a
    · rw [if_pos hp] at h
      have hle := length_dropWhile_le p (w ++ t)
      rw [h] at hle
      simp at hle
    · rw [List.dropWhile_cons, if_neg hp]

theorem pyStripL_no_leading (l : List Char) :
    (pyStripL l).dropWhile Char.isWhitespace = pyStripL l := by
  unfold pyStripL
  have hy := dropWhile_idem Char.isWhitespace l
  have hsplit := (List.takeWhile_append_dropWhile Char.isWhitespace
    (l.dropWhile Char.isWhitespace).reverse).symm
  have hdec : l.dropWhile Char.isWhitespace =
      ((l.dropWhile Char.isWhitespace).reverse.dropWhile Char.isWhitespace).reverse ++
      ((l.dropWhile Char.isWhitespace).reverse.takeWhile Char.isWhitespace).reverse := by
    have h2 := congrArg List.reverse hsplit
    rw [List.reverse_reverse, List.reverse_append] at h2
    exact h2
  rw [hdec] at hy
  exact dropWhile_append_self _ _ hy

/-- Python `strip` is idempotent. -/
theorem pyStripL_idem (l : List Char) : pyStripL (pyStripL l) = pyStripL l := by
  have h1 := pyStripL_no_leading l
  show (((pyStripL l).dropWhile Char.isWhitespace).reverse.dropWhile
    Char.isWhitespace).reverse = pyStripL l
  rw [h1]
  have h2 : (pyStripL l).reverse =
      (l.dropWhile Char.isWhitespace).reverse.dropWhile Char.isWhitespace := by
    unfold pyStripL; rw [List.reverse_reverse]
  rw [h2, dropWhile_idem, ← h2, List.reverse_reverse]

/-- A suffix-free name in the range of `cleanName` is a fixed point of
`cleanName`. -/
theorem cleanName_fixed_of_clean {n m : String}
    (hn : n = cleanName m) (hns : stripDotDigitsL n.data = n.data) :
    cleanName n = n := by
  have hdata : n.data = pyStripL (stripDotDigitsL m.data) := by rw [hn]; rfl
  unfold cleanName
  rw [hns, hdata, pyStripL_idem, ← hdata]

theorem foldl_dedupStep_fixed (l : List String) :
    ∀ df : Frame, (∀ n ∈ l, cleanName n = n) → l.foldl dedupStep df = df := by
  induction l with
  | nil => intro df _; rfl
  | cons x l ih =>
    intro df h
    rw [List.foldl_cons]
    have hx : dedupStep df x = df := by
      unfold dedupStep
      rw [if_pos (h x (List.mem_cons_self x l))]
    rw [hx]
    exact ih df (fun n hn => h n (List.mem_cons_of_mem x hn))

theorem frameNames_dedupStep {df : Frame} {m n : String}
    (h : n ∈ frameNames (dedupStep df m)) :
    n ∈ frameNames df ∨ n = cleanName m := by
  unfold dedupStep at h
  split at h
  · exact Or.inl h
  · split at h
    · left
      unfold frameNames at h ⊢
      obtain ⟨c, hc, rfl⟩ := List.mem_map.mp h
      exact List.mem_map.mpr ⟨c, (List.mem_filter.mp hc).1, rfl⟩
    · unfold frameNames at h ⊢
      obtain ⟨c, hc, rfl⟩ := List.mem_map.mp h
      obtain ⟨c0, hc0, rfl⟩ := List.mem_map.mp hc
      by_cases hm : c0.1 = m
      · right; simp [hm]
      · left; exact List.mem_map.mpr ⟨c0, hc0, by simp [hm]⟩

/-- A column whose name is not cleaned in place does not survive its own
loop iteration under its old name. -/
theorem not_mem_dedupStep_self {df : Frame} {m : String} (hm : cleanName m ≠ m) :
    m ∉ frameNames (dedupStep df m) := by
  unfold dedupStep
  rw [if_neg hm]
  intro hmem
  split at hmem
  · unfold frameNames at hmem
    obtain ⟨c, hc, hcm⟩ := List.mem_map.mp hmem
    have hne := (List.mem_filter.mp hc).2
    simp at hne
    exact hne hcm
  · unfold frameNames at hmem
    obtain ⟨c, hc, hcm⟩ := List.mem_map.mp hmem
    obtain ⟨c0, hc0, rfl⟩ := List.mem_map.mp hc
    by_cases h0 : c0.1 = m
    · rw [if_pos h0] at hcm
      exact hm hcm
    · rw [if_neg h0] at hcm
      exact h0 hcm

theorem foldl_dedupStep_names (l : List String) :
    ∀ df : Frame,
      (∀ n ∈ frameNames df, cleanName n = n ∨ (∃ m, n = cleanName m) ∨ n ∈ l) →
      ∀ n ∈ frameNames (l.foldl dedupStep df),
        cleanName n = n ∨ ∃ m, n = cleanName m := by
  induction l with
  | nil =>
    intro df h n hn
    rcases h n hn with h1 | h2 | h3
    · exact Or.inl h1
    · exact Or.inr h2
    · simp at h3
  | cons x l ih =>
    intro df h
    rw [List.foldl_cons]
    apply ih
    intro n hn
    rcases frameNames_dedupStep hn with hmem | hcl
    · rcases h n hmem with h1 | h2 | h3
      · exact Or.inl h1
      · exact Or.inr (Or.inl h2)
      · rcases List.mem_cons.mp h3 with rfl | h4
        · by_cases hx : cleanName n = n
          · exact Or.inl hx
          · exact absurd hn (not_mem_dedupStep_self hx)
        · exact Or.inr (Or.inr h4)
    · exact Or.inr (Or.inl ⟨x, hcl⟩)

/-- Every column name surviving deduplication is either already clean or
is the cleaned form of some original name. -/
theorem combine_repeated_columns_names (df : Frame) :
    ∀ n ∈ frameNames (combine_repeated_columns df),
      cleanName n = n ∨ ∃ m, n = cleanName m := by
  apply foldl_dedupStep_names
  intro n hn
  exact Or.inr (Or.inr hn)

/-- Claim C9: deduplication is idempotent — on a batch it has already
produced whose column names carry no trailing dot-plus-digits suffixes,
`combine_repeated_columns` is the identity. -/
theorem combine_repeated_columns_idem (df : Frame)
    (h : ∀ n ∈ frameNames (combine_repeated_columns df), stripDotDigits n = n) :
    combine_repeated_columns (combine_repeated_columns df) =
      combine_repeated_columns df := by
  have hrw : combine_repeated_columns (combine_repeated_columns df) =
      (frameNames (combine_repeated_columns df)).foldl dedupStep
        (combine_repeated_columns df) := rfl
  rw [hrw]
  apply foldl_dedupStep_fixed
  intro n hn
  rcases combine_repeated_columns_names df n hn with h1 | ⟨m, hm⟩
  · exact h1
  · exact cleanName_fixed_of_clean hm (congrArg String.data (h n hn))

theorem combine_repeated_columns_idem_witness :
    combine_repeated_columns (combine_repeated_columns
      [("AGE", [(some 1 : Option ℚ)]), ("AGE.1", [some 2])]) =
    combine_repeated_columns [("AGE", [(some 1 : Option ℚ)]), ("AGE.1", [some 2])] :=
  combine_repeated_columns_idem _ (by decide)
